import Mathlib

/-!
Verification model of the LEDMatrix scrolling sports ticker plugin
(`src/manager.py`, class `ScrollingSportsPlugin`).

The embedding models bitmaps as width/height plus a pixel function
(mirroring the PIL `Image.new` / `paste` / `crop` operations used by the
plugin), the plugin's mutable fields as an explicit state record, and the
`update` / `display` / `reset_cycle_state` entry points as state
transitions.  Text and logo measurement is a collaborator (a font), so it
is passed in as an explicit measurement function.  Python floats used by
the scroll-offset remap and the frame-delay check are modelled as exact
rationals; Python `int()` truncation is modelled by `py_int_of_rat`.
-/

namespace ScrollingSports

/-- A bitmap in the PIL "RGB" model: a width, a height and a pixel lookup
function (colour encoded as a natural number; pixels outside the canvas are
irrelevant to every statement below). -/
structure Img where
  width : Nat
  height : Nat
  px : Nat → Nat → Nat

/-- Model of `PIL.Image.new("RGB", (w, h), c)`: a `w × h` canvas filled with
colour `c`. -/
def image_new (w h c : Nat) : Img :=
  { width := w, height := h, px := fun _ _ => c }

/-- Model of `dst.paste(src, (x0, y0))` (no mask): pixels inside the pasted
box come from `src`, all others from `dst`. -/
def paste (dst src : Img) (x0 y0 : Nat) : Img :=
  { dst with
    px := fun x y =>
      if x0 ≤ x ∧ x < x0 + src.width ∧ y0 ≤ y ∧ y < y0 + src.height then
        src.px (x - x0) (y - y0)
      else
        dst.px x y }

/-- Model of `src.crop((l, t, r, b))`: a `(r-l) × (b-t)` bitmap reading from
`src`, black (0) where the crop box leaves the source canvas. -/
def crop (src : Img) (l t r b : Nat) : Img :=
  { width := r - l,
    height := b - t,
    px := fun x y =>
      if l + x < src.width ∧ t + y < src.height then src.px (l + x) (t + y) else 0 }

/-- The plugin configuration surface relevant to the core, plus the host
display dimensions (`display_manager.width` / `.height`).  Integer-valued
config options are kept as `Int` because the source sanitizes them with
`max(...)` at each use site; the frame delay (a Python float) is kept as an
exact rational. -/
structure Config where
  display_width : Nat
  display_height : Nat
  segment_spacing_px : Int
  section_spacing_px : Int
  scroll_speed_px : Int
  scroll_frame_delay : ℚ
  max_games_per_section : Int
  show_section_labels : Bool
  enable_scrolling : Bool
  league_enabled : String → Bool
  ncaaf_teams : List String
  ncaam_teams : List String
  ncaaf_conferences : List String
  ncaam_conferences : List String
  ncaa_top25_only : Bool

/-- The inter-item spacing used by `_compose_ticker_image`:
`max(0, segment_spacing_px) + max(0, section_spacing_px)`. -/
def ticker_spacing (cfg : Config) : Nat :=
  (max 0 cfg.segment_spacing_px).toNat + (max 0 cfg.section_spacing_px).toNat

/-- The width accumulation loop of `_compose_ticker_image`: each item's
width, plus `spacing` after every item except the last. -/
def items_content_width (spacing : Nat) : List Img → Nat
  | [] => 0
  | [item] => item.width
  | item :: next :: rest => item.width + spacing + items_content_width spacing (next :: rest)

/-- The paste loop of `_compose_ticker_image`: items pasted left to right at
cumulative x offsets, advancing by the item width plus `spacing` between
consecutive items. -/
def paste_items (spacing : Nat) : Img → Nat → List Img → Img
  | ticker, _, [] => ticker
  | ticker, x, [item] => paste ticker item x 0
  | ticker, x, item :: next :: rest =>
      paste_items spacing (paste ticker item x 0) (x + item.width + spacing) (next :: rest)

/-- Model of `_compose_ticker_image`: `None` on an empty item sequence,
otherwise one wide bitmap of height `display_height` whose width is the
summed content width plus a trailing loop gap of one viewport width,
floored at the panel width. -/
def compose_ticker_image (cfg : Config) (items : List Img) : Option Img :=
  if items.isEmpty then none
  else
    let spacing := ticker_spacing cfg
    let loop_gap := cfg.display_width
    let total_width := items_content_width spacing items + loop_gap
    some (paste_items spacing
      (image_new (max cfg.display_width total_width) cfg.display_height 0) 0 items)

/-- Model of `_render_viewport_from_ticker`, given the ticker bitmap and the
current scroll offset: a ticker no wider than the viewport is pasted at the
origin; otherwise the viewport window `[left, left + W)` is cropped out,
wrapping around the right edge when the window crosses it. -/
def render_viewport_from_ticker (w h : Nat) (ticker : Img) (offset : Nat) : Img :=
  if ticker.width ≤ w then
    paste (image_new w h 0) ticker 0 0
  else
    let left := offset % ticker.width
    let right := left + w
    if right ≤ ticker.width then
      paste (image_new w h 0) (crop ticker left 0 right h) 0 0
    else
      let first := crop ticker left 0 ticker.width h
      let second := crop ticker 0 0 (right - ticker.width) h
      paste (paste (image_new w h 0) first 0 0) second first.width 0

/-- Static league definition (the `LeagueDefinition` dataclass). -/
structure LeagueDefinition where
  key : String
  name : String
  sport_path : String
  league_path : String
  enabled_key : String
  is_ncaa : Bool := false
  ncaa_kind : Option String := none
  default_group : String := ""

/-- Lifecycle state of a parsed contest.  The source stores it as one of the
three strings "upcoming" / "live" / "final", derived once from the upstream
status and never mutated. -/
inductive GameState where
  | upcoming
  | live
  | final
deriving DecidableEq

/-- One parsed contest (the `GameEntry` dataclass).  `start_local` is the
localized start time, modelled as a timestamp on the total order of
datetimes. -/
structure GameEntry where
  event_id : String
  league_key : String
  state : GameState
  start_local : Int
  short_status : String
  away_abbr : String
  home_abbr : String
  away_score : String
  home_score : String
  live_period_label : String
  live_clock : String
  away_rank : Option Int
  home_rank : Option Int
  away_conf : Option Int
  home_conf : Option Int
  away_conf_name : Option String
  home_conf_name : Option String
  away_logo_url : Option String
  home_logo_url : Option String
  spread_text : String

/-- Python `str.upper()` on the character list (ASCII case mapping, as the
abbreviations and filter entries here are ASCII). -/
def py_upper (s : String) : String :=
  ⟨s.data.map Char.toUpper⟩

/-- Python `str.strip()`: drop leading and trailing whitespace. -/
def py_strip (s : String) : String :=
  ⟨((s.data.dropWhile Char.isWhitespace).reverse.dropWhile Char.isWhitespace).reverse⟩

/-- Python `str.rstrip()`: drop trailing whitespace. -/
def py_rstrip (s : String) : String :=
  ⟨(s.data.reverse.dropWhile Char.isWhitespace).reverse⟩

/-- Python `text[:cut]`: the first `cut` characters. -/
def py_take (s : String) (n : Nat) : String :=
  ⟨s.data.take n⟩

/-- Helper for `py_split`: walk the characters accumulating the current
word (reversed); whitespace flushes the accumulator. -/
def py_split_aux : List Char → List Char → List String
  | [], acc => if acc.isEmpty then [] else [⟨acc.reverse⟩]
  | c :: cs, acc =>
    if c.isWhitespace then
      if acc.isEmpty then py_split_aux cs [] else (⟨acc.reverse⟩ : String) :: py_split_aux cs []
    else py_split_aux cs (c :: acc)

/-- Python `str.split()` with no separator: the maximal whitespace-free
words, never producing empty strings. -/
def py_split (s : String) : List String :=
  py_split_aux s.data []

/-- Python `sep.join(parts)`. -/
def join_sep (sep : String) : List String → String
  | [] => ""
  | [s] => s
  | s :: next :: rest => s ++ sep ++ join_sep sep (next :: rest)

/-- Model of `_normalize_name`: strip, uppercase, and collapse internal
whitespace runs to single spaces (`" ".join(value.strip().upper().split())`). -/
def normalize_name (value : String) : String :=
  join_sep " " (py_split (py_upper (py_strip value)))

/-- Model of the list branch of `_get_list_config`: stringify-strip each
entry and drop the empty ones.  (The comma-separated-string branch of the
source produces a list of the same shape.) -/
def get_list_config (value : List String) : List String :=
  (value.map py_strip).filter (fun part => part ≠ "")

/-- Model of `_normalize_team_filters`: strip and uppercase each entry,
keeping only the non-empty results. -/
def normalize_team_filters (teams : List String) : List String :=
  teams.filterMap (fun team =>
    let cleaned := py_upper (py_strip team)
    if cleaned = "" then none else some cleaned)

/-- The static `NCAA_CONFERENCES` table: normalized conference name to
upstream group id, per NCAA kind. -/
def NCAA_CONFERENCES (kind : String) : List (String × Int) :=
  if kind = "football" then
    [ (normalize_name "ACC", 1),
      (normalize_name "AMERICAN ATHLETIC", 151),
      (normalize_name "BIG 12", 4),
      (normalize_name "BIG TEN", 5),
      (normalize_name "C-USA", 12),
      (normalize_name "INDEPENDENTS", 18),
      (normalize_name "MAC", 15),
      (normalize_name "MOUNTAIN WEST", 17),
      (normalize_name "PAC-12", 9),
      (normalize_name "SEC", 8),
      (normalize_name "SUN BELT", 37),
      (normalize_name "FCS INDEPENDENTS", 40),
      (normalize_name "ASUN-WAC", 48),
      (normalize_name "BIG SKY", 20),
      (normalize_name "BIG SOUTH-OVC", 73),
      (normalize_name "CAA", 68),
      (normalize_name "FCS (IA) INDEPENDENTS", 40),
      (normalize_name "IVY", 22),
      (normalize_name "MEAC", 16),
      (normalize_name "MISSOURI VALLEY", 21),
      (normalize_name "NORTHEAST", 24),
      (normalize_name "PATRIOT", 25),
      (normalize_name "PIONEER", 81),
      (normalize_name "SOCON", 27),
      (normalize_name "SOUTHLAND", 26),
      (normalize_name "SWAC", 28),
      (normalize_name "UAC", 98) ]
  else if kind = "basketball" then
    [ (normalize_name "ACC", 2),
      (normalize_name "AMERICA EAST", 1),
      (normalize_name "AMERICAN ATHLETIC", 62),
      (normalize_name "ATLANTIC 10", 3),
      (normalize_name "ATLANTIC SUN", 17),
      (normalize_name "BIG 12", 8),
      (normalize_name "BIG EAST", 4),
      (normalize_name "BIG SKY", 5),
      (normalize_name "BIG SOUTH", 6),
      (normalize_name "BIG TEN", 7),
      (normalize_name "BIG WEST", 9),
      (normalize_name "C-USA", 12),
      (normalize_name "CAA", 10),
      (normalize_name "HORIZON LEAGUE", 45),
      (normalize_name "IVY", 13),
      (normalize_name "MAAC", 14),
      (normalize_name "MAC", 15),
      (normalize_name "MEAC", 16),
      (normalize_name "MISSOURI VALLEY", 18),
      (normalize_name "MOUNTAIN WEST", 19),
      (normalize_name "NORTHEAST", 20),
      (normalize_name "OHIO VALLEY", 23),
      (normalize_name "PATRIOT", 24),
      (normalize_name "SEC", 23),
      (normalize_name "SOCON", 26),
      (normalize_name "SOUTHLAND", 27),
      (normalize_name "SUMMIT LEAGUE", 25),
      (normalize_name "SUN BELT", 37),
      (normalize_name "SWAC", 28),
      (normalize_name "WAC", 29),
      (normalize_name "WEST COAST", 30) ]
  else []

/-- The configured team allow-list for an NCAA kind
(`"ncaaf_teams"` for football, `"ncaam_teams"` for basketball). -/
def ncaa_team_list (cfg : Config) (kind : String) : List String :=
  get_list_config (if kind = "football" then cfg.ncaaf_teams else cfg.ncaam_teams)

/-- The configured conference allow-list for an NCAA kind
(`"ncaaf_conferences"` / `"ncaam_conferences"`). -/
def ncaa_conference_list (cfg : Config) (kind : String) : List String :=
  get_list_config (if kind = "football" then cfg.ncaaf_conferences else cfg.ncaam_conferences)

/-- Model of `_selected_conference_ids`: normalized configured conference
names looked up in the static table; entries with no table match are
dropped. -/
def selected_conference_ids (cfg : Config) (kind : String) : List Int :=
  (ncaa_conference_list cfg kind).filterMap
    (fun entry => (NCAA_CONFERENCES kind).lookup (normalize_name entry))

/-- Membership of an optional conference id in the selected id set
(Python `game.away_conf in conference_ids`, where `None` is never a
member). -/
def opt_conf_mem (conf : Option Int) (ids : List Int) : Bool :=
  match conf with
  | some c => decide (c ∈ ids)
  | none => false

/-- Model of `_passes_ncaa_filters`: non-NCAA leagues always pass; a
non-empty team allow-list decides by team abbreviation membership alone; a
non-empty conference selection decides by conference id or normalized
conference name; otherwise the Top-25 rule applies when configured, and
everything passes by default. -/
def passes_ncaa_filters (cfg : Config) (game : GameEntry) (league : LeagueDefinition) : Bool :=
  if league.is_ncaa = false ∨ league.ncaa_kind = none then
    true
  else
    let kind := league.ncaa_kind.getD ""
    let teams := normalize_team_filters (ncaa_team_list cfg kind)
    if teams ≠ [] then
      decide (py_upper game.away_abbr ∈ teams) || decide (py_upper game.home_abbr ∈ teams)
    else
      let selected_conference_names := (ncaa_conference_list cfg kind).map normalize_name
      let conference_ids := selected_conference_ids cfg kind
      if conference_ids ≠ [] ∨ selected_conference_names ≠ [] then
        let id_match := opt_conf_mem game.away_conf conference_ids ||
          opt_conf_mem game.home_conf conference_ids
        let away_name := match game.away_conf_name with
          | some n => normalize_name n
          | none => ""
        let home_name := match game.home_conf_name with
          | some n => normalize_name n
          | none => ""
        let name_match := decide (away_name ∈ selected_conference_names) ||
          decide (home_name ∈ selected_conference_names)
        id_match || name_match
      else if cfg.ncaa_top25_only then
        (match game.away_rank with
          | some r => decide (r ≤ 25)
          | none => false) ||
        (match game.home_rank with
          | some r => decide (r ≤ 25)
          | none => false)
      else
        true

/-- The static `LEAGUES` registry: six league definitions in their fixed
concatenation order. -/
def LEAGUES : List LeagueDefinition :=
  [ { key := "nfl", name := "NFL", sport_path := "football", league_path := "nfl",
      enabled_key := "league_nfl_enabled" },
    { key := "nba", name := "NBA", sport_path := "basketball", league_path := "nba",
      enabled_key := "league_nba_enabled" },
    { key := "nhl", name := "NHL", sport_path := "hockey", league_path := "nhl",
      enabled_key := "league_nhl_enabled" },
    { key := "mlb", name := "MLB", sport_path := "baseball", league_path := "mlb",
      enabled_key := "league_mlb_enabled" },
    { key := "ncaam", name := "NCAA MBB", sport_path := "basketball",
      league_path := "mens-college-basketball", enabled_key := "league_ncaam_enabled",
      is_ncaa := true, ncaa_kind := some "basketball", default_group := "50" },
    { key := "ncaaf", name := "NCAA FB", sport_path := "football",
      league_path := "college-football", enabled_key := "league_ncaaf_enabled",
      is_ncaa := true, ncaa_kind := some "football", default_group := "80" } ]

/-- The effective per-section cap computed in `update`:
`max(1, int(config.get("max_games_per_section", 8)))`. -/
def effective_max_games (cfg : Config) : Nat :=
  (max 1 cfg.max_games_per_section).toNat

/-- Ascending comparison on localized start times, as used by
`sorted(..., key=lambda g: g.start_local)`. -/
def start_le (a b : GameEntry) : Bool :=
  decide (a.start_local ≤ b.start_local)

/-- Descending comparison on localized start times, as used by
`sorted(..., key=lambda g: g.start_local, reverse=True)` (CPython's stable
sort with a reversed comparison). -/
def start_ge (a b : GameEntry) : Bool :=
  decide (b.start_local ≤ a.start_local)

/-- The three per-league section buckets built by `update`. -/
structure SectionLists where
  upcoming : List GameEntry
  live : List GameEntry
  final : List GameEntry

/-- The classifier/sorter of `update` (lines 272-284): partition the
parsed games by state, sort upcoming and live ascending and final
descending by start time with a stable sort, and truncate each bucket to
the effective cap. -/
def classify_league_games (cfg : Config) (parsed_games : List GameEntry) : SectionLists :=
  let max_games := effective_max_games cfg
  { upcoming :=
      ((parsed_games.filter (fun g => g.state = GameState.upcoming)).mergeSort start_le).take
        max_games,
    live :=
      ((parsed_games.filter (fun g => g.state = GameState.live)).mergeSort start_le).take
        max_games,
    final :=
      ((parsed_games.filter (fun g => g.state = GameState.final)).mergeSort start_ge).take
        max_games }

/-- The truncation candidate tried by `_fit_text_to_width` at a given cut:
the cut-character prefix, right-stripped, with the trailing ellipsis. -/
def fit_candidate (text : String) (cut : Nat) : String :=
  py_rstrip (py_take text cut) ++ "..."

/-- The `for cut in range(len(text), 0, -1)` loop of `_fit_text_to_width`:
try cuts from longest to shortest, returning the first candidate whose
measured width fits, and the bare ellipsis when none does. -/
def fit_loop (measure : String → Nat × Nat) (text : String) (max_width : Int) :
    Nat → String
  | 0 => "..."
  | cut + 1 =>
    let candidate := fit_candidate text (cut + 1)
    if ((measure candidate).1 : Int) ≤ max_width then candidate
    else fit_loop measure text max_width cut

/-- Model of `_fit_text_to_width`, with the text measurement collaborator
(`_measure_text` under the active font) passed in as `measure`. -/
def fit_text_to_width (measure : String → Nat × Nat) (text : String) (max_width : Int) :
    String :=
  if max_width ≤ 0 then ""
  else if ((measure text).1 : Int) ≤ max_width then text
  else fit_loop measure text max_width text.length

/-- The outcome of `_render_empty_message`: the fixed message text and the
top-left coordinates it is drawn at on a fresh panel-sized black canvas. -/
structure EmptyMessageRender where
  message : String
  x : Nat
  y : Nat
  width : Nat
  height : Nat

/-- Model of `_render_empty_message`: the fixed "NO GAMES TODAY" text,
centered on the panel via `max(0, (panel - measured) // 2)` in each axis
(Python floor division on possibly-negative differences). -/
def render_empty_message (cfg : Config) (measure : String → Nat × Nat) :
    EmptyMessageRender :=
  let message := "NO GAMES TODAY"
  let m := measure message
  { message := message,
    x := (max 0 (((cfg.display_width : Int) - (m.1 : Int)).fdiv 2)).toNat,
    y := (max 0 (((cfg.display_height : Int) - (m.2 : Int)).fdiv 2)).toNat,
    width := cfg.display_width,
    height := cfg.display_height }

/-- Python `int()` applied to a rational: truncation toward zero. -/
def py_int_of_rat (q : ℚ) : Int :=
  if 0 ≤ q then ⌊q⌋ else ⌈q⌉

/-- The mutable plugin fields relevant to the core (the `self._...` state
initialised in `__init__` and mutated only by `update`, `display` and
`reset_cycle_state`). -/
structure PluginState where
  enable_scrolling : Bool
  ticker_image : Option Img
  vegas_items : List Img
  games_by_league : List (String × SectionLists)
  league_logo_urls : List (String × Option String)
  live_games_count : Nat
  scroll_offset : Nat
  cycle_complete : Bool
  last_frame_ts : ℚ

/-- The state set up by `__init__` before the constructor's initial
`update()` call. -/
def init_state (cfg : Config) : PluginState :=
  { enable_scrolling := cfg.enable_scrolling,
    ticker_image := none,
    vegas_items := [],
    games_by_league := [],
    league_logo_urls := [],
    live_games_count := 0,
    scroll_offset := 0,
    cycle_complete := false,
    last_frame_ts := 0 }

/-- What one refresh cycle of `update` computes from fresh league data
before committing: the rendered item sequence and the per-league
bookkeeping that is committed alongside it. -/
structure CycleResult where
  new_items : List Img
  games_by_league : List (String × SectionLists)
  league_logo_urls : List (String × Option String)
  live_count : Nat

/-- The commit step of `update` (lines 304-323): keep the whole previous
state when the fresh cycle produced no items but previous content exists;
otherwise commit the new bookkeeping, compose the new ticker, and remap the
scroll cursor proportionally (`int(ratio * new_width)` clamped into
`[0, new_width)`), resetting it to 0 when there was no prior ticker. -/
def update_commit (cfg : Config) (st : PluginState) (r : CycleResult) : PluginState :=
  let st := { st with enable_scrolling := cfg.enable_scrolling }
  if r.new_items.isEmpty && !st.vegas_items.isEmpty then st
  else
    let ticker := compose_ticker_image cfg r.new_items
    let offset : Nat :=
      match ticker, st.ticker_image with
      | some t, some prior =>
        if 0 < prior.width then
          let ratio : ℚ := ((st.scroll_offset % prior.width : Nat) : ℚ) / (prior.width : ℚ)
          let mapped : Int := py_int_of_rat (ratio * (t.width : ℚ))
          (max 0 (min ((t.width : Int) - 1) mapped)).toNat
        else 0
      | _, _ => 0
    { st with
      ticker_image := ticker,
      vegas_items := r.new_items,
      games_by_league := r.games_by_league,
      league_logo_urls := r.league_logo_urls,
      live_games_count := r.live_count,
      scroll_offset := offset,
      cycle_complete := false }

/-- The minimum inter-frame delay enforced by `display`:
`max(0.004, float(config.get("scroll_frame_delay", 0.02)))`. -/
def scroll_frame_min_delay (cfg : Config) : ℚ :=
  max (1 / 250) cfg.scroll_frame_delay

/-- The per-tick scroll advance of `display`:
`max(1, int(config.get("scroll_speed_px", 1)))`. -/
def scroll_step (cfg : Config) : Nat :=
  (max 1 cfg.scroll_speed_px).toNat

/-- Everything one `display` call produces: the successor state, the
boolean result, the frame pushed to the host (if any), and the empty
message render (when the ticker is null). -/
structure DisplayOutcome where
  state : PluginState
  result : Bool
  frame : Option Img
  empty_message : Option EmptyMessageRender

/-- Model of `display`: a null ticker renders the fixed empty message and
reports failure; a call before the minimum inter-frame delay has elapsed is
a no-op success; otherwise the viewport frame is composed and pushed, and
the scroll offset advances by the configured step modulo the ticker width. -/
def display (cfg : Config) (measure : String → Nat × Nat) (st : PluginState)
    (now : ℚ) : DisplayOutcome :=
  match st.ticker_image with
  | none =>
    { state := st, result := false, frame := none,
      empty_message := some (render_empty_message cfg measure) }
  | some ticker =>
    if now - st.last_frame_ts < scroll_frame_min_delay cfg then
      { state := st, result := true, frame := none, empty_message := none }
    else
      let frame := render_viewport_from_ticker cfg.display_width cfg.display_height
        ticker st.scroll_offset
      let width := max 1 ticker.width
      { state :=
          { st with
            scroll_offset := (st.scroll_offset + scroll_step cfg) % width,
            last_frame_ts := now },
        result := true, frame := some frame, empty_message := none }

/-- Model of `reset_cycle_state`. -/
def reset_cycle_state (st : PluginState) : PluginState :=
  { st with cycle_complete := false, scroll_offset := 0 }

/-- The states reachable from the constructor state under the three public
operations.  The update step carries the fact that every rendered item has
width at least 1, which every item renderer guarantees by constructing its
bitmap with `Image.new("RGB", (max(1, width), ...))`. -/
inductive Reachable (cfg : Config) : PluginState → Prop
  | init : Reachable cfg (init_state cfg)
  | update (st : PluginState) (r : CycleResult)
      (h : Reachable cfg st) (hwf : ∀ i ∈ r.new_items, 1 ≤ i.width) :
      Reachable cfg (update_commit cfg st r)
  | display (st : PluginState) (measure : String → Nat × Nat) (now : ℚ)
      (h : Reachable cfg st) :
      Reachable cfg (ScrollingSports.display cfg measure st now).state
  | reset (st : PluginState) (h : Reachable cfg st) :
      Reachable cfg (reset_cycle_state st)

/-- An upstream scoreboard payload as `update` consumes it: its `events`
list (over an abstract raw-event type; ESPN JSON extraction is a parsing
collaborator). -/
structure Payload (ε : Type) where
  events : List ε

/-- The per-league loop of `update` (lines 246-302), over abstract fetch
results.  A disabled league, a missing payload and an empty `events` list
are skipped outright; `process` stands for the parse / date-filter /
NCAA-filter / classify / render chain of the loop body, returning `none`
when the league is dropped (no parsed games, or all buckets empty) and
otherwise the league's rendered items, section buckets, logo url and live
count. -/
def cycle_of_payloads {ε : Type} (cfg : Config)
    (process : LeagueDefinition → Payload ε →
      Option (List Img × SectionLists × Option String × Nat))
    (payloads : LeagueDefinition → Option (Payload ε)) : CycleResult :=
  LEAGUES.foldl
    (fun acc league =>
      if cfg.league_enabled league.enabled_key then
        match payloads league with
        | none => acc
        | some payload =>
          if payload.events.isEmpty then acc
          else
            match process league payload with
            | none => acc
            | some (items, sections, logo_url, live_n) =>
              { new_items := acc.new_items ++ items,
                games_by_league := acc.games_by_league ++ [(league.key, sections)],
                league_logo_urls := acc.league_logo_urls ++ [(league.key, logo_url)],
                live_count := acc.live_count + live_n }
      else acc)
    { new_items := [], games_by_league := [], league_logo_urls := [], live_count := 0 }

/-- A reference configuration with the source's documented defaults, used
to instantiate witnesses. -/
def cfg0 : Config :=
  { display_width := 128,
    display_height := 32,
    segment_spacing_px := 12,
    section_spacing_px := 20,
    scroll_speed_px := 1,
    scroll_frame_delay := 1 / 50,
    max_games_per_section := 8,
    show_section_labels := true,
    enable_scrolling := true,
    league_enabled := fun _ => true,
    ncaaf_teams := [],
    ncaam_teams := [],
    ncaaf_conferences := [],
    ncaam_conferences := [],
    ncaa_top25_only := false }

theorem items_content_width_eq (spacing : Nat) :
    ∀ items : List Img,
      items_content_width spacing items =
        (items.map Img.width).sum + spacing * (items.length - 1)
  | [] => by simp [items_content_width]
  | [item] => by simp [items_content_width]
  | a :: b :: t => by
    have ih := items_content_width_eq spacing (b :: t)
    simp only [items_content_width, List.map_cons, List.sum_cons, List.length_cons,
      Nat.add_sub_cancel] at ih ⊢
    rw [ih, Nat.mul_succ]
    omega

theorem paste_width (dst src : Img) (x y : Nat) : (paste dst src x y).width = dst.width := rfl

theorem paste_height (dst src : Img) (x y : Nat) : (paste dst src x y).height = dst.height := rfl

theorem paste_items_width (spacing : Nat) :
    ∀ (base : Img) (x : Nat) (items : List Img),
      (paste_items spacing base x items).width = base.width
  | _, _, [] => rfl
  | _, _, [_] => rfl
  | base, x, a :: b :: t => by
    rw [paste_items, paste_items_width spacing _ _ (b :: t), paste_width]

theorem paste_items_height (spacing : Nat) :
    ∀ (base : Img) (x : Nat) (items : List Img),
      (paste_items spacing base x items).height = base.height
  | _, _, [] => rfl
  | _, _, [_] => rfl
  | base, x, a :: b :: t => by
    rw [paste_items, paste_items_height spacing _ _ (b :: t), paste_height]

/-- C1: for every non-empty sequence of rendered items the composed ticker
bitmap has width `sum of item widths + (segment spacing + section spacing) ×
(n-1) + one viewport width`, floored at the panel width, and height equal to
the panel height; composing an empty item sequence returns a null ticker. -/
theorem C1_compose_ticker_dimensions (cfg : Config) (items : List Img) :
    (items = [] → compose_ticker_image cfg items = none) ∧
    (items ≠ [] →
      ∃ t, compose_ticker_image cfg items = some t ∧
        t.width =
          max cfg.display_width
            ((items.map Img.width).sum + ticker_spacing cfg * (items.length - 1) +
              cfg.display_width) ∧
        t.height = cfg.display_height) := by
  constructor
  · rintro rfl
    rfl
  · intro h
    have hne : items.isEmpty = false := by
      cases items with
      | nil => exact absurd rfl h
      | cons a t => rfl
    simp only [compose_ticker_image, hne, Bool.false_eq_true, if_false]
    refine ⟨_, rfl, ?_, ?_⟩
    · rw [paste_items_width, items_content_width_eq]
      rfl
    · rw [paste_items_height]
      rfl

/-- C1 witness: a concrete one-item composition. -/
theorem C1_compose_ticker_dimensions_witness :
    (([image_new 5 7 0] : List Img) ≠ []) ∧
    (∃ t, compose_ticker_image cfg0 [image_new 5 7 0] = some t ∧
      t.width =
        max cfg0.display_width
          (([image_new 5 7 0].map Img.width).sum +
            ticker_spacing cfg0 * (([image_new 5 7 0] : List Img).length - 1) +
            cfg0.display_width) ∧
      t.height = cfg0.display_height) :=
  ⟨by simp, (C1_compose_ticker_dimensions cfg0 [image_new 5 7 0]).2 (by simp)⟩

theorem paste_px_inside (dst src : Img) (x0 y0 x y : Nat)
    (h : x0 ≤ x ∧ x < x0 + src.width ∧ y0 ≤ y ∧ y < y0 + src.height) :
    (paste dst src x0 y0).px x y = src.px (x - x0) (y - y0) := if_pos h

theorem paste_px_outside (dst src : Img) (x0 y0 x y : Nat)
    (h : ¬(x0 ≤ x ∧ x < x0 + src.width ∧ y0 ≤ y ∧ y < y0 + src.height)) :
    (paste dst src x0 y0).px x y = dst.px x y := if_neg h

theorem crop_px_inside (src : Img) (l t r b x y : Nat)
    (h : l + x < src.width ∧ t + y < src.height) :
    (crop src l t r b).px x y = src.px (l + x) (t + y) := if_pos h

/-- C2: for a ticker strictly wider than the viewport and any scroll offset
inside it, the rendered viewport frame is the pixel-exact circular crop: the
columns `ticker[offset : offset+w]` when the window does not cross the right
edge, and `ticker[offset : width]` followed by `ticker[0 : offset+w-width]`
when it does. -/
theorem C2_viewport_crop_circular (w h : Nat) (ticker : Img) (offset : Nat)
    (hh : ticker.height = h) (hwide : w < ticker.width) (hoff : offset < ticker.width) :
    (render_viewport_from_ticker w h ticker offset).width = w ∧
    (render_viewport_from_ticker w h ticker offset).height = h ∧
    (offset + w ≤ ticker.width →
      ∀ x, x < w → ∀ y, y < h →
        (render_viewport_from_ticker w h ticker offset).px x y =
          ticker.px (offset + x) y) ∧
    (ticker.width < offset + w →
      (∀ x, x < ticker.width - offset → ∀ y, y < h →
        (render_viewport_from_ticker w h ticker offset).px x y =
          ticker.px (offset + x) y) ∧
      (∀ x, ticker.width - offset ≤ x → x < w → ∀ y, y < h →
        (render_viewport_from_ticker w h ticker offset).px x y =
          ticker.px (offset + x - ticker.width) y)) := by
  have hmod : offset % ticker.width = offset := Nat.mod_eq_of_lt hoff
  simp only [render_viewport_from_ticker, hmod]
  rw [if_neg (by omega)]
  by_cases hcase : offset + w ≤ ticker.width
  · rw [if_pos hcase]
    refine ⟨rfl, rfl, ?_, ?_⟩
    · intro _ x hx y hy
      rw [paste_px_inside _ _ _ _ _ _
        ⟨Nat.zero_le _, by show x < 0 + (offset + w - offset); omega,
          Nat.zero_le _, by show y < 0 + (h - 0); omega⟩]
      simp only [Nat.sub_zero]
      rw [crop_px_inside _ _ _ _ _ _ _ ⟨by omega, by rw [hh]; omega⟩]
      rw [Nat.zero_add]
    · intro hlt
      omega
  · rw [if_neg hcase]
    refine ⟨rfl, rfl, ?_, ?_⟩
    · intro hle
      omega
    · intro _
      constructor
      · intro x hx y hy
        rw [paste_px_outside _ _ _ _ _ _ (by
          intro hmem
          have hfw : (crop ticker offset 0 ticker.width h).width = ticker.width - offset := rfl
          rw [hfw] at hmem
          omega)]
        rw [paste_px_inside _ _ _ _ _ _
          ⟨Nat.zero_le _, by show x < 0 + (ticker.width - offset); omega,
            Nat.zero_le _, by show y < 0 + (h - 0); omega⟩]
        simp only [Nat.sub_zero]
        rw [crop_px_inside _ _ _ _ _ _ _ ⟨by omega, by rw [hh]; omega⟩]
        rw [Nat.zero_add]
      · intro x hx hxw y hy
        rw [paste_px_inside _ _ _ _ _ _
          ⟨by show ticker.width - offset ≤ x; omega,
            by show x < (ticker.width - offset) + (offset + w - ticker.width); omega,
            Nat.zero_le _, by show y < 0 + (h - 0); omega⟩]
        simp only [Nat.sub_zero]
        rw [crop_px_inside _ _ _ _ _ _ _ ⟨by show 0 + (x - (ticker.width - offset)) < ticker.width; omega,
          by rw [hh]; omega⟩]
        have harg : 0 + (x - ((crop ticker offset 0 ticker.width h).width)) =
            offset + x - ticker.width := by
          show 0 + (x - (ticker.width - offset)) = offset + x - ticker.width
          omega
        rw [harg]
        rw [Nat.zero_add]

/-- C2 witness: the documented scenario, viewport width 128, ticker width
300, offset 250; the wrap splits the frame at column 50. -/
theorem C2_viewport_crop_circular_witness :
    (({ width := 300, height := 1, px := fun x _ => x } : Img).height = 1) ∧
    (128 < ({ width := 300, height := 1, px := fun x _ => x } : Img).width) ∧
    (250 < ({ width := 300, height := 1, px := fun x _ => x } : Img).width) ∧
    ((render_viewport_from_ticker 128 1 { width := 300, height := 1, px := fun x _ => x }
        250).width = 128 ∧
      (render_viewport_from_ticker 128 1 { width := 300, height := 1, px := fun x _ => x }
        250).height = 1 ∧
      (250 + 128 ≤ ({ width := 300, height := 1, px := fun x _ => x } : Img).width →
        ∀ x, x < 128 → ∀ y, y < 1 →
          (render_viewport_from_ticker 128 1
            { width := 300, height := 1, px := fun x _ => x } 250).px x y =
            ({ width := 300, height := 1, px := fun x _ => x } : Img).px (250 + x) y) ∧
      (({ width := 300, height := 1, px := fun x _ => x } : Img).width < 250 + 128 →
        (∀ x, x < ({ width := 300, height := 1, px := fun x _ => x } : Img).width - 250 →
          ∀ y, y < 1 →
          (render_viewport_from_ticker 128 1
            { width := 300, height := 1, px := fun x _ => x } 250).px x y =
            ({ width := 300, height := 1, px := fun x _ => x } : Img).px (250 + x) y) ∧
        (∀ x, ({ width := 300, height := 1, px := fun x _ => x } : Img).width - 250 ≤ x →
          x < 128 → ∀ y, y < 1 →
          (render_viewport_from_ticker 128 1
            { width := 300, height := 1, px := fun x _ => x } 250).px x y =
            ({ width := 300, height := 1, px := fun x _ => x } : Img).px
              (250 + x - ({ width := 300, height := 1, px := fun x _ => x } : Img).width) y))) :=
  ⟨rfl, by decide, by decide,
    C2_viewport_crop_circular 128 1 { width := 300, height := 1, px := fun x _ => x } 250
      rfl (by decide) (by decide)⟩

theorem items_content_width_pos (spacing : Nat) :
    ∀ items : List Img, items ≠ [] → (∀ i ∈ items, 1 ≤ i.width) →
      1 ≤ items_content_width spacing items
  | [], hne, _ => absurd rfl hne
  | [a], _, hwf => by
    have := hwf a (by simp)
    simpa [items_content_width] using this
  | a :: b :: t, _, hwf => by
    have := hwf a (by simp)
    simp only [items_content_width]
    omega

theorem compose_ticker_image_eq_none_iff (cfg : Config) (items : List Img) :
    compose_ticker_image cfg items = none ↔ items = [] := by
  cases items <;> simp [compose_ticker_image]

theorem compose_ticker_image_some_width (cfg : Config) (items : List Img) (t : Img)
    (h : compose_ticker_image cfg items = some t) :
    items ≠ [] ∧
    t.width =
      max cfg.display_width
        (items_content_width (ticker_spacing cfg) items + cfg.display_width) ∧
    t.height = cfg.display_height := by
  cases items with
  | nil => simp [compose_ticker_image] at h
  | cons a rest =>
    rw [compose_ticker_image] at h
    simp only [List.isEmpty_cons, Bool.false_eq_true, if_false, Option.some.injEq] at h
    subst h
    exact ⟨by simp, by rw [paste_items_width]; rfl, by rw [paste_items_height]; rfl⟩

theorem compose_ticker_image_width_pos (cfg : Config) (items : List Img) (t : Img)
    (h : compose_ticker_image cfg items = some t) (hwf : ∀ i ∈ items, 1 ≤ i.width) :
    1 ≤ t.width := by
  obtain ⟨hne, hw, -⟩ := compose_ticker_image_some_width cfg items t h
  have hpos := items_content_width_pos (ticker_spacing cfg) items hne hwf
  omega

/-- The core state invariant, proved by induction over reachability: the
ticker is null exactly when the vegas item list is empty, any live ticker
has positive width and contains the scroll offset, and the cached
`enable_scrolling` flag mirrors the configuration. -/
theorem reachable_invariant (cfg : Config) (st : PluginState) (h : Reachable cfg st) :
    (st.ticker_image = none ↔ st.vegas_items = []) ∧
    (∀ t, st.ticker_image = some t → 1 ≤ t.width ∧ st.scroll_offset < t.width) ∧
    st.enable_scrolling = cfg.enable_scrolling := by
  induction h with
  | init => simp [init_state]
  | update st r hr hwf ih =>
    obtain ⟨ihiff, ihbound, ihen⟩ := ih
    simp only [update_commit]
    split
    · exact ⟨ihiff, ihbound, rfl⟩
    · refine ⟨compose_ticker_image_eq_none_iff cfg r.new_items, ?_, rfl⟩
      intro t ht
      have ht' : compose_ticker_image cfg r.new_items = some t := ht
      have hwpos := compose_ticker_image_width_pos cfg r.new_items t ht' hwf
      refine ⟨hwpos, ?_⟩
      show (match compose_ticker_image cfg r.new_items, st.ticker_image with
        | some t, some prior =>
          if 0 < prior.width then
            (max 0 (min ((t.width : Int) - 1)
              (py_int_of_rat
                (((st.scroll_offset % prior.width : Nat) : ℚ) / (prior.width : ℚ) *
                  (t.width : ℚ))))).toNat
          else 0
        | _, _ => 0) < t.width
      rw [ht']
      cases hprior : st.ticker_image with
      | none => exact hwpos
      | some prior =>
        show (if 0 < prior.width then
            (max 0 (min ((t.width : Int) - 1)
              (py_int_of_rat
                (((st.scroll_offset % prior.width : Nat) : ℚ) / (prior.width : ℚ) *
                  (t.width : ℚ))))).toNat
          else 0) < t.width
        by_cases hpw : 0 < prior.width
        · rw [if_pos hpw]
          have hmax : max 0 (min ((t.width : Int) - 1)
              (py_int_of_rat
                (((st.scroll_offset % prior.width : Nat) : ℚ) / (prior.width : ℚ) *
                  (t.width : ℚ)))) ≤ (t.width : Int) - 1 :=
            max_le (by omega) (min_le_left _ _)
          omega
        · rw [if_neg hpw]
          exact hwpos
  | display st measure now hr ih =>
    obtain ⟨ihiff, ihbound, ihen⟩ := ih
    cases hti : st.ticker_image with
    | none =>
      simp only [display, hti]
      refine ⟨iff_of_true trivial (ihiff.mp hti), ?_, ihen⟩
      intro t ht
      exact Option.noConfusion ht
    | some t =>
      simp only [display, hti]
      by_cases hdel : now - st.last_frame_ts < scroll_frame_min_delay cfg
      · rw [if_pos hdel]
        exact ⟨ihiff, ihbound, ihen⟩
      · rw [if_neg hdel]
        refine ⟨?_, ?_, ihen⟩
        · refine iff_of_false (by simp) ?_
          intro hv
          rw [ihiff.mpr hv] at hti
          exact Option.noConfusion hti
        · intro t' ht'
          have he : some t = some t' := ht'
          injection he with he
          subst he
          have h1 := (ihbound t hti).1
          refine ⟨h1, ?_⟩
          show (st.scroll_offset + scroll_step cfg) % max 1 t.width < t.width
          rw [Nat.max_eq_right h1]
          exact Nat.mod_lt _ (by omega)
  | reset st hr ih =>
    obtain ⟨ihiff, ihbound, ihen⟩ := ih
    refine ⟨ihiff, ?_, ihen⟩
    intro t ht
    have ht' : st.ticker_image = some t := ht
    refine ⟨(ihbound t ht').1, ?_⟩
    show 0 < t.width
    exact (ihbound t ht').1

/-- C3: in every reachable state with a non-null ticker the scroll offset
lies in `[0, ticker.width - 1]` (reachability closes over display ticks,
refresh commits and resets, so no operation leaves the range), and a
display tick that renders a frame advances the offset by the configured
step modulo the current ticker width. -/
theorem C3_scroll_offset_range_and_advance (cfg : Config) (st : PluginState)
    (h : Reachable cfg st) :
    (∀ t, st.ticker_image = some t → st.scroll_offset < t.width) ∧
    (∀ (measure : String → Nat × Nat) (now : ℚ) (t : Img),
      st.ticker_image = some t →
      scroll_frame_min_delay cfg ≤ now - st.last_frame_ts →
      (display cfg measure st now).frame =
        some (render_viewport_from_ticker cfg.display_width cfg.display_height t
          st.scroll_offset) ∧
      (display cfg measure st now).state.scroll_offset =
        (st.scroll_offset + scroll_step cfg) % t.width) := by
  obtain ⟨hiff, hbound, hen⟩ := reachable_invariant cfg st h
  refine ⟨fun t ht => (hbound t ht).2, ?_⟩
  intro measure now t ht hdel
  have h1 := (hbound t ht).1
  simp only [display, ht]
  rw [if_neg (not_lt.mpr hdel)]
  exact ⟨rfl, by show (st.scroll_offset + scroll_step cfg) % max 1 t.width =
    (st.scroll_offset + scroll_step cfg) % t.width; rw [Nat.max_eq_right h1]⟩

/-- A one-item refresh cycle used to build concrete reachable states for
witnesses. -/
def cycle1 : CycleResult :=
  { new_items := [image_new 5 7 0],
    games_by_league := [],
    league_logo_urls := [],
    live_count := 0 }

/-- A concrete reachable state holding a composed one-item ticker. -/
def st1 : PluginState :=
  update_commit cfg0 (init_state cfg0) cycle1

theorem st1_reachable : Reachable cfg0 st1 :=
  Reachable.update (init_state cfg0) cycle1 Reachable.init
    (by
      intro i hi
      rw [show cycle1.new_items = [image_new 5 7 0] from rfl] at hi
      rw [List.mem_singleton] at hi
      subst hi
      decide)

/-- C3 witness: the range and advance facts hold at the concrete reachable
state `st1`. -/
theorem C3_scroll_offset_range_and_advance_witness :
    (∀ t, st1.ticker_image = some t → st1.scroll_offset < t.width) ∧
    (∀ (measure : String → Nat × Nat) (now : ℚ) (t : Img),
      st1.ticker_image = some t →
      scroll_frame_min_delay cfg0 ≤ now - st1.last_frame_ts →
      (display cfg0 measure st1 now).frame =
        some (render_viewport_from_ticker cfg0.display_width cfg0.display_height t
          st1.scroll_offset) ∧
      (display cfg0 measure st1 now).state.scroll_offset =
        (st1.scroll_offset + scroll_step cfg0) % t.width) :=
  C3_scroll_offset_range_and_advance cfg0 st1 st1_reachable

theorem py_int_of_rat_nonneg (q : ℚ) (h : 0 ≤ q) : py_int_of_rat q = ⌊q⌋ := if_pos h

theorem floor_ratio_mul (a b c : Nat) :
    ⌊((a : ℚ) / (b : ℚ)) * (c : ℚ)⌋ = ((a * c / b : Nat) : Int) := by
  have hq : ((a : ℚ) / (b : ℚ)) * (c : ℚ) = ((a * c : ℕ) : ℚ) / ((b : ℕ) : ℚ) := by
    push_cast
    ring
  rw [hq, ← Int.natCast_floor_eq_floor (by positivity), Nat.floor_div_eq_div]

/-- C4: when `update` commits a new non-null ticker over a prior ticker of
positive width, the remapped scroll offset is exactly
`floor((oldOffset mod oldWidth) / oldWidth × newWidth)` — which over the
naturals is `(oldOffset mod oldWidth) * newWidth / oldWidth` — and the
clamp into `[0, newWidth)` holds (the clamp never has to truncate);
when no prior ticker existed the offset is reset to 0. -/
theorem C4_offset_remap_proportional (cfg : Config) (r : CycleResult)
    (hwf : ∀ i ∈ r.new_items, 1 ≤ i.width) (hne : r.new_items ≠ []) :
    ∀ st : PluginState,
      (∀ p t, st.ticker_image = some p → 0 < p.width →
        compose_ticker_image cfg r.new_items = some t →
        (update_commit cfg st r).scroll_offset =
          (st.scroll_offset % p.width) * t.width / p.width ∧
        (update_commit cfg st r).scroll_offset < t.width) ∧
      (st.ticker_image = none → (update_commit cfg st r).scroll_offset = 0) := by
  intro st
  have hguard : (r.new_items.isEmpty && !st.vegas_items.isEmpty) = false := by
    have : r.new_items.isEmpty = false := by
      cases hcase : r.new_items with
      | nil => exact absurd hcase hne
      | cons a l => rfl
    rw [this]
    rfl
  constructor
  · intro p t hp hpw hcomp
    have htw : 1 ≤ t.width := compose_ticker_image_width_pos cfg r.new_items t hcomp hwf
    have key : (update_commit cfg st r).scroll_offset =
        (max 0 (min ((t.width : Int) - 1)
          (py_int_of_rat (((st.scroll_offset % p.width : Nat) : ℚ) / (p.width : ℚ) *
            (t.width : ℚ))))).toNat := by
      simp only [update_commit]
      split
      · next hg =>
        rw [hguard] at hg
        exact absurd hg (by simp)
      · show (match compose_ticker_image cfg r.new_items, st.ticker_image with
          | some t, some prior =>
            if 0 < prior.width then
              (max 0 (min ((t.width : Int) - 1)
                (py_int_of_rat
                  (((st.scroll_offset % prior.width : Nat) : ℚ) / (prior.width : ℚ) *
                    (t.width : ℚ))))).toNat
            else 0
          | _, _ => 0) = _
        rw [hcomp, hp]
        show (if 0 < p.width then
            (max 0 (min ((t.width : Int) - 1)
              (py_int_of_rat
                (((st.scroll_offset % p.width : Nat) : ℚ) / (p.width : ℚ) *
                  (t.width : ℚ))))).toNat
          else 0) = _
        rw [if_pos hpw]
    have hfloor : py_int_of_rat
        (((st.scroll_offset % p.width : Nat) : ℚ) / (p.width : ℚ) * (t.width : ℚ)) =
        (((st.scroll_offset % p.width) * t.width / p.width : Nat) : Int) := by
      rw [py_int_of_rat_nonneg _ (by positivity)]
      exact floor_ratio_mul _ _ _
    have hm_lt : (st.scroll_offset % p.width) * t.width / p.width < t.width := by
      have hmod : st.scroll_offset % p.width < p.width := Nat.mod_lt _ hpw
      rw [Nat.div_lt_iff_lt_mul hpw]
      have hmul := mul_lt_mul_of_pos_right hmod (show 0 < t.width from htw)
      rw [Nat.mul_comm t.width p.width]
      exact hmul
    rw [key, hfloor]
    have hmin : min ((t.width : Int) - 1)
        (((st.scroll_offset % p.width) * t.width / p.width : Nat) : Int) =
        (((st.scroll_offset % p.width) * t.width / p.width : Nat) : Int) :=
      min_eq_right (by omega)
    rw [hmin]
    rw [max_eq_right (by positivity)]
    rw [Int.toNat_natCast]
    exact ⟨rfl, hm_lt⟩
  · intro hp
    simp only [update_commit]
    split
    · next hg =>
      rw [hguard] at hg
      exact absurd hg (by simp)
    · show (match compose_ticker_image cfg r.new_items, st.ticker_image with
        | some t, some prior =>
          if 0 < prior.width then
            (max 0 (min ((t.width : Int) - 1)
              (py_int_of_rat
                (((st.scroll_offset % prior.width : Nat) : ℚ) / (prior.width : ℚ) *
                  (t.width : ℚ))))).toNat
          else 0
        | _, _ => 0) = 0
      rw [hp]
      cases compose_ticker_image cfg r.new_items <;> rfl

/-- C4 witness: remapping onto the concrete reachable state `st1`, which
holds a 133-pixel ticker. -/
theorem C4_offset_remap_proportional_witness :
    (∀ i ∈ cycle1.new_items, 1 ≤ i.width) ∧ cycle1.new_items ≠ [] ∧
    ((∀ p t, st1.ticker_image = some p → 0 < p.width →
        compose_ticker_image cfg0 cycle1.new_items = some t →
        (update_commit cfg0 st1 cycle1).scroll_offset =
          (st1.scroll_offset % p.width) * t.width / p.width ∧
        (update_commit cfg0 st1 cycle1).scroll_offset < t.width) ∧
      (st1.ticker_image = none → (update_commit cfg0 st1 cycle1).scroll_offset = 0)) :=
  ⟨by
      intro i hi
      rw [show cycle1.new_items = [image_new 5 7 0] from rfl] at hi
      rw [List.mem_singleton] at hi
      subst hi
      decide,
    by simp [cycle1],
    C4_offset_remap_proportional cfg0 cycle1
      (by
        intro i hi
        rw [show cycle1.new_items = [image_new 5 7 0] from rfl] at hi
        rw [List.mem_singleton] at hi
        subst hi
        decide)
      (by simp [cycle1]) st1⟩

/-- C5: a refresh cycle that produced zero items while a non-null ticker
exists commits nothing: the state after `update` — ticker bitmap, scroll
offset, per-league game maps, vegas item list, live count, and all —
is identical to the state before. -/
theorem C5_partial_failure_guard (cfg : Config) (st : PluginState) (r : CycleResult)
    (h : Reachable cfg st) (t : Img) (ht : st.ticker_image = some t)
    (hr : r.new_items = []) :
    update_commit cfg st r = st := by
  obtain ⟨hiff, -, hen⟩ := reachable_invariant cfg st h
  have hv : st.vegas_items ≠ [] := by
    intro hcon
    rw [hiff.mpr hcon] at ht
    exact Option.noConfusion ht
  have hguard : (r.new_items.isEmpty && !st.vegas_items.isEmpty) = true := by
    rw [hr]
    simp [hv]
  simp only [update_commit, hguard, if_true]
  rw [← hen]

/-- An empty refresh cycle (transient fetch failure: no fresh items). -/
def cycle_empty : CycleResult :=
  { new_items := [], games_by_league := [], league_logo_urls := [], live_count := 0 }

/-- The ticker bitmap held by the concrete reachable state `st1`. -/
def ticker1 : Img :=
  paste (image_new 133 32 0) (image_new 5 7 0) 0 0

/-- C5 witness: an empty cycle leaves the concrete state `st1` (which holds
a ticker) untouched. -/
theorem C5_partial_failure_guard_witness :
    st1.ticker_image = some ticker1 ∧ cycle_empty.new_items = [] ∧
    update_commit cfg0 st1 cycle_empty = st1 :=
  ⟨rfl, rfl, C5_partial_failure_guard cfg0 st1 cycle_empty st1_reachable ticker1 rfl rfl⟩

theorem start_le_trans : ∀ a b c : GameEntry, start_le a b → start_le b c → start_le a c := by
  intro a b c hab hbc
  simp only [start_le, decide_eq_true_eq] at hab hbc ⊢
  omega

theorem start_le_total : ∀ a b : GameEntry, start_le a b || start_le b a := by
  intro a b
  simp only [start_le, Bool.or_eq_true, decide_eq_true_eq]
  omega

theorem start_ge_trans : ∀ a b c : GameEntry, start_ge a b → start_ge b c → start_ge a c := by
  intro a b c hab hbc
  simp only [start_ge, decide_eq_true_eq] at hab hbc ⊢
  omega

theorem start_ge_total : ∀ a b : GameEntry, start_ge a b || start_ge b a := by
  intro a b
  simp only [start_ge, Bool.or_eq_true, decide_eq_true_eq]
  omega

/-- Stability of the stable sort on an equivalence class of the ordering:
filtering the sorted list down to elements that are mutually `le` returns
exactly the input's filtered subsequence, in input order. -/
theorem mergeSort_filter_key {α : Type} (le : α → α → Bool)
    (trans : ∀ a b c, le a b → le b c → le a c)
    (total : ∀ a b, le a b || le b a)
    (p : α → Bool) (hp : ∀ a b, p a = true → p b = true → le a b = true)
    (l : List α) :
    (l.mergeSort le).filter p = l.filter p := by
  have hpair : (l.filter p).Pairwise (le · ·) :=
    List.pairwise_of_forall_mem_list (fun a ha b hb =>
      hp a b (List.of_mem_filter ha) (List.of_mem_filter hb))
  have hsub : List.Sublist (l.filter p) (l.mergeSort le) :=
    List.sublist_mergeSort trans total hpair (List.filter_sublist l)
  have hsub2 : List.Sublist ((l.filter p).filter p) ((l.mergeSort le).filter p) :=
    hsub.filter p
  rw [List.filter_eq_self.mpr (fun a ha => List.of_mem_filter ha)] at hsub2
  have hperm : ((l.mergeSort le).filter p).Perm (l.filter p) :=
    (List.mergeSort_perm l le).filter p
  exact (hsub2.eq_of_length hperm.length_eq.symm).symm

/-- C6 (amended): the classifier partitions by state, sorts upcoming and
live ascending and final descending by local start time with ties kept in
input order, and truncates each bucket to the effective cap
`max(1, max_games_per_section)`; for any configured cap ≥ 1 the effective
cap is the configured cap. -/
theorem C6_classifier_buckets (cfg : Config) (games : List GameEntry) :
    (∀ g ∈ (classify_league_games cfg games).upcoming,
      g ∈ games ∧ g.state = GameState.upcoming) ∧
    (∀ g ∈ (classify_league_games cfg games).live,
      g ∈ games ∧ g.state = GameState.live) ∧
    (∀ g ∈ (classify_league_games cfg games).final,
      g ∈ games ∧ g.state = GameState.final) ∧
    (classify_league_games cfg games).upcoming.length ≤ effective_max_games cfg ∧
    (classify_league_games cfg games).live.length ≤ effective_max_games cfg ∧
    (classify_league_games cfg games).final.length ≤ effective_max_games cfg ∧
    (1 ≤ cfg.max_games_per_section →
      (effective_max_games cfg : Int) = cfg.max_games_per_section) ∧
    (classify_league_games cfg games).upcoming.Pairwise
      (fun a b => a.start_local ≤ b.start_local) ∧
    (classify_league_games cfg games).live.Pairwise
      (fun a b => a.start_local ≤ b.start_local) ∧
    (classify_league_games cfg games).final.Pairwise
      (fun a b => b.start_local ≤ a.start_local) ∧
    (∀ k : Int,
      List.Sublist
        ((classify_league_games cfg games).upcoming.filter (fun g => g.start_local = k))
        ((games.filter (fun g => g.state = GameState.upcoming)).filter
          (fun g => g.start_local = k))) ∧
    (∀ k : Int,
      List.Sublist
        ((classify_league_games cfg games).live.filter (fun g => g.start_local = k))
        ((games.filter (fun g => g.state = GameState.live)).filter
          (fun g => g.start_local = k))) ∧
    (∀ k : Int,
      List.Sublist
        ((classify_league_games cfg games).final.filter (fun g => g.start_local = k))
        ((games.filter (fun g => g.state = GameState.final)).filter
          (fun g => g.start_local = k))) := by
  have hmem :
      ∀ (le : GameEntry → GameEntry → Bool) (p : GameEntry → Bool) (g : GameEntry),
        g ∈ ((games.filter p).mergeSort le).take (effective_max_games cfg) →
        g ∈ games ∧ p g = true := by
    intro le p g hg
    have h1 : g ∈ (games.filter p).mergeSort le :=
      (List.take_sublist _ _).subset hg
    rw [List.mem_mergeSort] at h1
    exact ⟨(List.mem_filter.mp h1).1, (List.mem_filter.mp h1).2⟩
  have hlen :
      ∀ (le : GameEntry → GameEntry → Bool) (p : GameEntry → Bool),
        (((games.filter p).mergeSort le).take (effective_max_games cfg)).length ≤
          effective_max_games cfg := by
    intro le p
    rw [List.length_take]
    exact min_le_left _ _
  have hsorted :
      ∀ (le : GameEntry → GameEntry → Bool)
        (_ : ∀ a b c, le a b → le b c → le a c) (_ : ∀ a b, le a b || le b a)
        (p : GameEntry → Bool),
        (((games.filter p).mergeSort le).take (effective_max_games cfg)).Pairwise
          (le · ·) := by
    intro le htrans htotal p
    exact (List.sorted_mergeSort htrans htotal _).sublist (List.take_sublist _ _)
  have hstable :
      ∀ (le : GameEntry → GameEntry → Bool)
        (_ : ∀ a b c, le a b → le b c → le a c) (_ : ∀ a b, le a b || le b a)
        (_ : ∀ (a b : GameEntry) (k : Int),
          a.start_local = k → b.start_local = k → le a b = true)
        (p : GameEntry → Bool) (k : Int),
        List.Sublist
          ((((games.filter p).mergeSort le).take (effective_max_games cfg)).filter
            (fun g => g.start_local = k))
          ((games.filter p).filter (fun g => g.start_local = k)) := by
    intro le htrans htotal hkey p k
    have h1 := (List.take_sublist (effective_max_games cfg)
      ((games.filter p).mergeSort le)).filter (fun g => decide (g.start_local = k))
    rw [mergeSort_filter_key le htrans htotal _
      (fun a b ha hb =>
        hkey a b k (of_decide_eq_true ha) (of_decide_eq_true hb)) (games.filter p)] at h1
    exact h1
  refine ⟨fun g hg => ?_, fun g hg => ?_, fun g hg => ?_, hlen _ _, hlen _ _, hlen _ _,
    ?_, ?_, ?_, ?_, ?_, ?_, ?_⟩
  · have := hmem start_le _ g hg
    exact ⟨this.1, of_decide_eq_true this.2⟩
  · have := hmem start_le _ g hg
    exact ⟨this.1, of_decide_eq_true this.2⟩
  · have := hmem start_ge _ g hg
    exact ⟨this.1, of_decide_eq_true this.2⟩
  · intro hcap
    simp only [effective_max_games]
    omega
  · exact (hsorted start_le start_le_trans start_le_total _).imp
      (fun hab => by simpa [start_le] using hab)
  · exact (hsorted start_le start_le_trans start_le_total _).imp
      (fun hab => by simpa [start_le] using hab)
  · exact (hsorted start_ge start_ge_trans start_ge_total _).imp
      (fun hab => by simpa [start_ge] using hab)
  · intro k
    exact hstable start_le start_le_trans start_le_total
      (fun a b k ha hb => by simp [start_le, ha, hb]) _ k
  · intro k
    exact hstable start_le start_le_trans start_le_total
      (fun a b k ha hb => by simp [start_le, ha, hb]) _ k
  · intro k
    exact hstable start_ge start_ge_trans start_ge_total
      (fun a b k ha hb => by simp [start_ge, ha, hb]) _ k

/-- A concrete upcoming game used for counterexamples and witnesses. -/
def game0 : GameEntry :=
  { event_id := "401547"
    league_key := "nfl"
    state := GameState.upcoming
    start_local := 0
    short_status := "7:00 PM"
    away_abbr := "NYJ"
    home_abbr := "BUF"
    away_score := "0"
    home_score := "0"
    live_period_label := ""
    live_clock := ""
    away_rank := none
    home_rank := none
    away_conf := none
    home_conf := none
    away_conf_name := none
    home_conf_name := none
    away_logo_url := none
    home_logo_url := none
    spread_text := "Spread BUF -3.5" }

/-- A configuration whose per-section cap is set to 0. -/
def cfg_cap0 : Config :=
  { cfg0 with max_games_per_section := 0 }

/-- C6 counterexample: with `max_games_per_section = 0` and one upcoming
game, the upcoming bucket has length 1, exceeding the configured cap — the
code clamps the cap to at least 1, so the bucket length is not bounded by
the configured value as the claim states. -/
theorem C6_classifier_buckets_counterexample :
    ¬ (((classify_league_games cfg_cap0 [game0]).upcoming.length : Int) ≤
        cfg_cap0.max_games_per_section) := by
  have hup : (classify_league_games cfg_cap0 [game0]).upcoming = [game0] := by
    simp [classify_league_games, effective_max_games, cfg_cap0, cfg0, game0]
  rw [hup]
  decide

/-- C6 witness: the amended classifier facts at a concrete configuration
and a concrete one-game list. -/
theorem C6_classifier_buckets_witness :
    (∀ g ∈ (classify_league_games cfg0 [game0]).upcoming,
      g ∈ [game0] ∧ g.state = GameState.upcoming) ∧
    (∀ g ∈ (classify_league_games cfg0 [game0]).live,
      g ∈ [game0] ∧ g.state = GameState.live) ∧
    (∀ g ∈ (classify_league_games cfg0 [game0]).final,
      g ∈ [game0] ∧ g.state = GameState.final) ∧
    (classify_league_games cfg0 [game0]).upcoming.length ≤ effective_max_games cfg0 ∧
    (classify_league_games cfg0 [game0]).live.length ≤ effective_max_games cfg0 ∧
    (classify_league_games cfg0 [game0]).final.length ≤ effective_max_games cfg0 ∧
    (1 ≤ cfg0.max_games_per_section →
      (effective_max_games cfg0 : Int) = cfg0.max_games_per_section) ∧
    (classify_league_games cfg0 [game0]).upcoming.Pairwise
      (fun a b => a.start_local ≤ b.start_local) ∧
    (classify_league_games cfg0 [game0]).live.Pairwise
      (fun a b => a.start_local ≤ b.start_local) ∧
    (classify_league_games cfg0 [game0]).final.Pairwise
      (fun a b => b.start_local ≤ a.start_local) ∧
    (∀ k : Int,
      List.Sublist
        ((classify_league_games cfg0 [game0]).upcoming.filter (fun g => g.start_local = k))
        (([game0].filter (fun g => g.state = GameState.upcoming)).filter
          (fun g => g.start_local = k))) ∧
    (∀ k : Int,
      List.Sublist
        ((classify_league_games cfg0 [game0]).live.filter (fun g => g.start_local = k))
        (([game0].filter (fun g => g.state = GameState.live)).filter
          (fun g => g.start_local = k))) ∧
    (∀ k : Int,
      List.Sublist
        ((classify_league_games cfg0 [game0]).final.filter (fun g => g.start_local = k))
        (([game0].filter (fun g => g.state = GameState.final)).filter
          (fun g => g.start_local = k))) :=
  C6_classifier_buckets cfg0 [game0]

/-- C7: for an NCAA league with a non-empty normalized team allow-list, a
game passes the NCAA filters exactly when the uppercased away or home
abbreviation is in the allow-list; the result does not depend on the
conference allow-list or Top-25 configuration at all (any configuration
agreeing on the team lists gives the same verdict); and for non-NCAA
leagues every game passes. -/
theorem C7_ncaa_team_filter_precedence (cfg : Config) (game : GameEntry)
    (league : LeagueDefinition) (kind : String)
    (hncaa : league.is_ncaa = true) (hkind : league.ncaa_kind = some kind)
    (hteams : normalize_team_filters (ncaa_team_list cfg kind) ≠ []) :
    (passes_ncaa_filters cfg game league = true ↔
      py_upper game.away_abbr ∈ normalize_team_filters (ncaa_team_list cfg kind) ∨
      py_upper game.home_abbr ∈ normalize_team_filters (ncaa_team_list cfg kind)) ∧
    (∀ cfg' : Config,
      cfg'.ncaaf_teams = cfg.ncaaf_teams → cfg'.ncaam_teams = cfg.ncaam_teams →
      passes_ncaa_filters cfg' game league = passes_ncaa_filters cfg game league) ∧
    (∀ league' : LeagueDefinition, league'.is_ncaa = false →
      passes_ncaa_filters cfg game league' = true) := by
  have hreduce : ∀ cfg'' : Config,
      normalize_team_filters (ncaa_team_list cfg'' kind) ≠ [] →
      passes_ncaa_filters cfg'' game league =
        (decide (py_upper game.away_abbr ∈ normalize_team_filters (ncaa_team_list cfg'' kind)) ||
          decide (py_upper game.home_abbr ∈ normalize_team_filters (ncaa_team_list cfg'' kind))) := by
    intro cfg'' hne
    rw [passes_ncaa_filters]
    rw [if_neg (by simp [hncaa, hkind])]
    rw [hkind]
    simp only [Option.getD_some]
    rw [if_pos hne]
  refine ⟨?_, ?_, ?_⟩
  · rw [hreduce cfg hteams]
    simp only [Bool.or_eq_true, decide_eq_true_eq]
  · intro cfg' hf hm
    have hlist : ncaa_team_list cfg' kind = ncaa_team_list cfg kind := by
      rw [ncaa_team_list, ncaa_team_list, hf, hm]
    have hne' : normalize_team_filters (ncaa_team_list cfg' kind) ≠ [] := by
      rw [hlist]
      exact hteams
    rw [hreduce cfg' hne', hreduce cfg hteams, hlist]
  · intro league' hn
    rw [passes_ncaa_filters]
    rw [if_pos (Or.inl hn)]

/-- The static NCAA football league definition, for witnesses. -/
def league_ncaaf : LeagueDefinition :=
  { key := "ncaaf", name := "NCAA FB", sport_path := "football",
    league_path := "college-football", enabled_key := "league_ncaaf_enabled",
    is_ncaa := true, ncaa_kind := some "football", default_group := "80" }

/-- A configuration with a one-team NCAA football allow-list. -/
def cfg_teams : Config :=
  { cfg0 with ncaaf_teams := ["buf "] }

/-- C7 witness: the precedence facts at the concrete allow-list
configuration, the NCAA football league and a concrete game. -/
theorem C7_ncaa_team_filter_precedence_witness :
    (league_ncaaf.is_ncaa = true) ∧ (league_ncaaf.ncaa_kind = some "football") ∧
    (normalize_team_filters (ncaa_team_list cfg_teams "football") ≠ []) ∧
    ((passes_ncaa_filters cfg_teams game0 league_ncaaf = true ↔
        py_upper game0.away_abbr ∈ normalize_team_filters (ncaa_team_list cfg_teams "football") ∨
        py_upper game0.home_abbr ∈ normalize_team_filters (ncaa_team_list cfg_teams "football")) ∧
      (∀ cfg' : Config,
        cfg'.ncaaf_teams = cfg_teams.ncaaf_teams → cfg'.ncaam_teams = cfg_teams.ncaam_teams →
        passes_ncaa_filters cfg' game0 league_ncaaf =
          passes_ncaa_filters cfg_teams game0 league_ncaaf) ∧
      (∀ league' : LeagueDefinition, league'.is_ncaa = false →
        passes_ncaa_filters cfg_teams game0 league' = true)) :=
  ⟨rfl, rfl, by decide,
    C7_ncaa_team_filter_precedence cfg_teams game0 league_ncaaf "football" rfl rfl (by decide)⟩

theorem foldl_fixed {α β : Type} (f : β → α → β) :
    ∀ l : List α, (∀ a ∈ l, ∀ acc, f acc a = acc) → ∀ init : β, l.foldl f init = init
  | [], _, _ => rfl
  | a :: t, h, init => by
    rw [List.foldl_cons, h a (List.mem_cons_self a t) init]
    exact foldl_fixed f t (fun b hb acc => h b (List.mem_cons_of_mem a hb) acc) init

/-- A cycle in which every fetched payload has an empty `events` list (or is
missing) contributes nothing: every league is skipped. -/
theorem cycle_of_payloads_empty {ε : Type} (cfg : Config)
    (process : LeagueDefinition → Payload ε →
      Option (List Img × SectionLists × Option String × Nat))
    (payloads : LeagueDefinition → Option (Payload ε))
    (h : ∀ league ∈ LEAGUES, ∀ p, payloads league = some p → p.events = []) :
    cycle_of_payloads cfg process payloads =
      { new_items := [], games_by_league := [], league_logo_urls := [], live_count := 0 } := by
  apply foldl_fixed
  intro league hl acc
  cases hp : payloads league with
  | none => simp [hp]
  | some p =>
    have hev : p.events = [] := h league hl p hp
    simp [hp, hev]

theorem centered_coord (a b : Nat) (h : b ≤ a) :
    (max 0 (((a : Int) - (b : Int)).fdiv 2)).toNat = (a - b) / 2 := by
  have h1 : (a : Int) - b = ((a - b : Nat) : Int) := by omega
  have h2 : ((a - b : Nat) : Int).fdiv 2 = (((a - b) / 2 : Nat) : Int) := by
    rw [show (2 : Int) = ((2 : Nat) : Int) from rfl]
    exact (Int.ofNat_fdiv _ _).symm
  rw [h1, h2]
  omega

/-- C8: whenever the ticker is null, `display` renders the fixed centered
"NO GAMES TODAY" message and returns a failure result without mutating any
state and without composing a viewport frame; and when every enabled league
returns an empty events list while no prior ticker exists, `update`
produces a null ticker, so the subsequent `display` behaves exactly that
way. -/
theorem C8_no_games_today {ε : Type} (cfg : Config)
    (measure : String → Nat × Nat) (now : ℚ)
    (process : LeagueDefinition → Payload ε →
      Option (List Img × SectionLists × Option String × Nat))
    (payloads : LeagueDefinition → Option (Payload ε))
    (st : PluginState) (hticker : st.ticker_image = none)
    (hempty : ∀ league ∈ LEAGUES, ∀ p, payloads league = some p → p.events = []) :
    (∀ s : PluginState, s.ticker_image = none →
      (display cfg measure s now).result = false ∧
      (display cfg measure s now).state = s ∧
      (display cfg measure s now).frame = none ∧
      (display cfg measure s now).empty_message = some (render_empty_message cfg measure) ∧
      (render_empty_message cfg measure).message = "NO GAMES TODAY" ∧
      (render_empty_message cfg measure).width = cfg.display_width ∧
      (render_empty_message cfg measure).height = cfg.display_height ∧
      ((measure "NO GAMES TODAY").1 ≤ cfg.display_width →
        (render_empty_message cfg measure).x =
          (cfg.display_width - (measure "NO GAMES TODAY").1) / 2) ∧
      ((measure "NO GAMES TODAY").2 ≤ cfg.display_height →
        (render_empty_message cfg measure).y =
          (cfg.display_height - (measure "NO GAMES TODAY").2) / 2)) ∧
    (update_commit cfg st (cycle_of_payloads cfg process payloads)).ticker_image = none := by
  constructor
  · intro s hs
    simp only [display, hs]
    refine ⟨by trivial, by trivial, by trivial, by trivial, by trivial, by trivial,
      by trivial, ?_, ?_⟩
    · intro hw
      exact centered_coord _ _ hw
    · intro hh
      exact centered_coord _ _ hh
  · rw [cycle_of_payloads_empty cfg process payloads hempty]
    simp only [update_commit]
    split
    · exact hticker
    · rfl

/-- The fallback text metric of `_measure_text` (6 pixels per character,
8 pixels tall), used as a concrete measurement collaborator. -/
def measure0 (s : String) : Nat × Nat :=
  (6 * s.length, 8)

/-- C8 witness: empty payloads for every league on the fresh initial state,
with the fallback metric and the default configuration. -/
theorem C8_no_games_today_witness :
    ((init_state cfg0).ticker_image = none) ∧
    (∀ league ∈ LEAGUES, ∀ p : Payload Unit,
      (fun _ : LeagueDefinition => some ({ events := [] } : Payload Unit)) league = some p →
      p.events = []) ∧
    ((∀ s : PluginState, s.ticker_image = none →
      (display cfg0 measure0 s 1).result = false ∧
      (display cfg0 measure0 s 1).state = s ∧
      (display cfg0 measure0 s 1).frame = none ∧
      (display cfg0 measure0 s 1).empty_message = some (render_empty_message cfg0 measure0) ∧
      (render_empty_message cfg0 measure0).message = "NO GAMES TODAY" ∧
      (render_empty_message cfg0 measure0).width = cfg0.display_width ∧
      (render_empty_message cfg0 measure0).height = cfg0.display_height ∧
      ((measure0 "NO GAMES TODAY").1 ≤ cfg0.display_width →
        (render_empty_message cfg0 measure0).x =
          (cfg0.display_width - (measure0 "NO GAMES TODAY").1) / 2) ∧
      ((measure0 "NO GAMES TODAY").2 ≤ cfg0.display_height →
        (render_empty_message cfg0 measure0).y =
          (cfg0.display_height - (measure0 "NO GAMES TODAY").2) / 2)) ∧
    (update_commit cfg0 (init_state cfg0)
      (cycle_of_payloads cfg0 (fun _ _ => none)
        (fun _ => some ({ events := [] } : Payload Unit)))).ticker_image = none) :=
  ⟨rfl,
    fun _ _ p hp => by
      injection hp with hp
      rw [← hp],
    C8_no_games_today cfg0 measure0 1 (fun _ _ => none)
      (fun _ => some ({ events := [] } : Payload Unit)) (init_state cfg0) rfl
      (fun _ _ p hp => by
        injection hp with hp
        rw [← hp])⟩

/-- C9: a `display` call on a live ticker arriving before the minimum
inter-frame delay has elapsed is a pure no-op success: the state (scroll
offset, last-frame timestamp, ticker and all other fields) is unchanged, no
frame is composed, and the result is `true`. -/
theorem C9_frame_delay_noop (cfg : Config) (measure : String → Nat × Nat)
    (st : PluginState) (now : ℚ) (t : Img)
    (ht : st.ticker_image = some t)
    (hdel : now - st.last_frame_ts < scroll_frame_min_delay cfg) :
    display cfg measure st now =
      { state := st, result := true, frame := none, empty_message := none } := by
  simp only [display, ht, if_pos hdel]

/-- C9 witness: calling `display` on the concrete state `st1` at the very
timestamp of its last frame (elapsed time 0, below the 20 ms default
delay) changes nothing. -/
theorem C9_frame_delay_noop_witness :
    st1.ticker_image = some ticker1 ∧
    ((0 : ℚ) - st1.last_frame_ts < scroll_frame_min_delay cfg0) ∧
    display cfg0 measure0 st1 0 =
      { state := st1, result := true, frame := none, empty_message := none } :=
  ⟨rfl,
    by
      rw [show st1.last_frame_ts = (0 : ℚ) from rfl,
        show scroll_frame_min_delay cfg0 = max (1 / 250 : ℚ) (1 / 50) from rfl]
      norm_num,
    C9_frame_delay_noop cfg0 measure0 st1 0 ticker1 rfl
      (by
        rw [show st1.last_frame_ts = (0 : ℚ) from rfl,
          show scroll_frame_min_delay cfg0 = max (1 / 250 : ℚ) (1 / 50) from rfl]
        norm_num)⟩

/-- The truncation loop returns the candidate of the longest cut that fits
when one exists, and the bare ellipsis otherwise. -/
theorem fit_loop_spec (measure : String → Nat × Nat) (text : String) (max_width : Int) :
    ∀ fuel : Nat,
      (∃ cut, 1 ≤ cut ∧ cut ≤ fuel ∧
        ((measure (fit_candidate text cut)).1 : Int) ≤ max_width ∧
        fit_loop measure text max_width fuel = fit_candidate text cut ∧
        ∀ c, cut < c → c ≤ fuel →
          max_width < ((measure (fit_candidate text c)).1 : Int)) ∨
      ((∀ c, 1 ≤ c → c ≤ fuel →
          max_width < ((measure (fit_candidate text c)).1 : Int)) ∧
        fit_loop measure text max_width fuel = "...")
  | 0 => Or.inr ⟨fun c hc1 hc2 => by omega, rfl⟩
  | fuel + 1 => by
    by_cases hfit : ((measure (fit_candidate text (fuel + 1))).1 : Int) ≤ max_width
    · left
      refine ⟨fuel + 1, by omega, le_refl _, hfit, ?_, fun c hc1 hc2 => by omega⟩
      rw [fit_loop, if_pos hfit]
    · have hstep : fit_loop measure text max_width (fuel + 1) =
          fit_loop measure text max_width fuel := by
        rw [fit_loop, if_neg hfit]
      cases fit_loop_spec measure text max_width fuel with
      | inl h =>
        obtain ⟨cut, h1, h2, h3, h4, h5⟩ := h
        left
        refine ⟨cut, h1, by omega, h3, by rw [hstep]; exact h4, ?_⟩
        intro c hc1 hc2
        by_cases hc : c ≤ fuel
        · exact h5 c hc1 hc
        · have hce : c = fuel + 1 := by omega
          rw [hce]
          exact lt_of_not_ge hfit
      | inr h =>
        right
        refine ⟨?_, by rw [hstep]; exact h.2⟩
        intro c hc1 hc2
        by_cases hc : c ≤ fuel
        · exact h.1 c hc1 hc
        · have hce : c = fuel + 1 := by omega
          rw [hce]
          exact lt_of_not_ge hfit

/-- C10 (amended): for a positive maximum width the fitter returns the
input when its measured width fits; otherwise it returns the candidate
`rstrip(text[:cut]) + "..."` for the longest cut in `[1, len]` whose
measured width fits — and that result's width is within the maximum — when
such a cut exists, and the bare ellipsis (without any width guarantee)
when no candidate fits at all. -/
theorem C10_fit_text_to_width (measure : String → Nat × Nat) (text : String)
    (max_width : Int) (hpos : 0 < max_width) :
    (((measure text).1 : Int) ≤ max_width →
      fit_text_to_width measure text max_width = text) ∧
    (max_width < ((measure text).1 : Int) →
      (∃ cut, 1 ≤ cut ∧ cut ≤ text.length ∧
        ((measure (fit_candidate text cut)).1 : Int) ≤ max_width ∧
        fit_text_to_width measure text max_width = fit_candidate text cut ∧
        (∀ c, cut < c → c ≤ text.length →
          max_width < ((measure (fit_candidate text c)).1 : Int)) ∧
        ((measure (fit_text_to_width measure text max_width)).1 : Int) ≤ max_width) ∨
      ((∀ c, 1 ≤ c → c ≤ text.length →
          max_width < ((measure (fit_candidate text c)).1 : Int)) ∧
        fit_text_to_width measure text max_width = "...")) := by
  have hnn : ¬ max_width ≤ 0 := by omega
  constructor
  · intro hfits
    rw [fit_text_to_width, if_neg hnn, if_pos hfits]
  · intro hover
    rw [fit_text_to_width, if_neg hnn, if_neg (by omega)]
    cases fit_loop_spec measure text max_width text.length with
    | inl h =>
      obtain ⟨cut, h1, h2, h3, h4, h5⟩ := h
      left
      exact ⟨cut, h1, h2, h3, h4, h5, by rw [h4]; exact h3⟩
    | inr h =>
      right
      exact h

/-- C10 counterexample: with the source's own fallback metric (6 px per
character), text "A" and maximum width 1, no candidate fits and the
function returns the bare ellipsis, whose measured width 18 exceeds the
maximum width 1 — refuting the claim's unconditional width bound. -/
theorem C10_fit_text_to_width_counterexample :
    (0 : Int) < 1 ∧
    ¬ (((measure0 (fit_text_to_width measure0 "A" 1)).1 : Int) ≤ 1) := by
  constructor
  · decide
  · decide

/-- C10 witness: at maximum width 100 the text "A" fits outright and is
returned unchanged. -/
theorem C10_fit_text_to_width_witness :
    ((0 : Int) < 100) ∧
    ((((measure0 "A").1 : Int) ≤ 100 →
      fit_text_to_width measure0 "A" 100 = "A") ∧
    (100 < ((measure0 "A").1 : Int) →
      (∃ cut, 1 ≤ cut ∧ cut ≤ "A".length ∧
        ((measure0 (fit_candidate "A" cut)).1 : Int) ≤ 100 ∧
        fit_text_to_width measure0 "A" 100 = fit_candidate "A" cut ∧
        (∀ c, cut < c → c ≤ "A".length →
          100 < ((measure0 (fit_candidate "A" c)).1 : Int)) ∧
        ((measure0 (fit_text_to_width measure0 "A" 100)).1 : Int) ≤ 100) ∨
      ((∀ c, 1 ≤ c → c ≤ "A".length →
          100 < ((measure0 (fit_candidate "A" c)).1 : Int)) ∧
        fit_text_to_width measure0 "A" 100 = "..."))) :=
  ⟨by decide, C10_fit_text_to_width measure0 "A" 100 (by decide)⟩

end ScrollingSports
